import Mathlib

/-!
Verification of the geometry and classification engine of the `rsrpp`
PDF-layout parser (`src/src/parser/mod.rs`).

Numbers: the Rust code computes on `f32`; the embedding uses `ℚ`, reading the
arithmetic at its ideal real-number meaning.  Panics (`unwrap` on `None`,
indexing an empty vector, `sci_rs::stats::median` on an empty slice) are
modelled as `Option`/`Except` failures.
-/

namespace Rsrpp

/-- Block classification attribute (`BlockAttr` in the source). -/
inductive BlockAttr where
  | Title
  | Text
  | Else
deriving DecidableEq

/-- A word: trimmed text plus its bounding box (struct `Word`). -/
structure Word where
  text : String
  x : ℚ
  y : ℚ
  width : ℚ
  height : ℚ
deriving DecidableEq

/-- Method `Word::font_size`: a word's font size is its height. -/
def Word.font_size (w : Word) : ℚ := w.height

/-- A line: its words plus its own bounding box (struct `Line`). -/
structure Line where
  words : List Word
  x : ℚ
  y : ℚ
  width : ℚ
  height : ℚ
deriving DecidableEq

/-- Constructor `Line::new`: a line with no words yet. -/
def Line.new (x y width height : ℚ) : Line :=
  { words := [], x := x, y := y, width := width, height := height }

/-- Method `Line::add_word`: pushes a word whose text is trimmed of
surrounding whitespace at construction. -/
def Line.add_word (l : Line) (text : String) (x y width height : ℚ) : Line :=
  { l with words := l.words ++
      [{ text := text.trim, x := x, y := y, width := width, height := height }] }

/-- Method `Line::get_text`: the words' texts joined with single spaces. -/
def Line.get_text (l : Line) : String :=
  String.intercalate " " (l.words.map (fun w => w.text))

/-- A block: its lines, bounding box and classification attribute
(struct `Block`). -/
structure Block where
  lines : List Line
  x : ℚ
  y : ℚ
  width : ℚ
  height : ℚ
  attr : BlockAttr
deriving DecidableEq

/-- Constructor `Block::new`: no lines, attribute starts as `Else`. -/
def Block.new (x y width height : ℚ) : Block :=
  { lines := [], x := x, y := y, width := width, height := height,
    attr := BlockAttr.Else }

/-- Method `Block::add_line`. -/
def Block.add_line (b : Block) (x y width height : ℚ) : Block :=
  { b with lines := b.lines ++ [Line.new x y width height] }

/-- Method `Block::get_text`: the loop appends each line's text followed by a
newline to the accumulator, i.e. the concatenation of `line.get_text ++ "\n"`
over the lines. -/
def Block.get_text (b : Block) : String :=
  String.join (b.lines.map (fun line => line.get_text ++ "\n"))

/-- A page: its blocks plus the page's width and height (struct `Page`). -/
structure Page where
  blocks : List Block
  width : ℚ
  height : ℚ
deriving DecidableEq

/-- Constructor `Page::new`. -/
def Page.new (width height : ℚ) : Page :=
  { blocks := [], width := width, height := height }

/-- Method `Page::add_block`. -/
def Page.add_block (p : Page) (x y width height : ℚ) : Page :=
  { p with blocks := p.blocks ++ [Block.new x y width height] }

/-- Method `Page::get_text`: each block's text followed by a blank line. -/
def Page.get_text (p : Page) : String :=
  String.join (p.blocks.map (fun block => block.get_text ++ "\n\n"))

/-- Method `Page::top`: collect every line's `y`, sort ascending, take the
first element.  `values.first().unwrap()` panics on a page with no lines,
modelled by `Option`. -/
def Page.top (p : Page) : Option ℚ :=
  let values := p.blocks.flatMap (fun block => block.lines.map (fun line => line.y))
  (values.insertionSort (· ≤ ·)).head?

/-- Method `Page::bottom`: collect every line's `y + height`, sort descending,
take the first element; panic on no lines modelled by `Option`. -/
def Page.bottom (p : Page) : Option ℚ :=
  let values := p.blocks.flatMap
    (fun block => block.lines.map (fun line => line.y + line.height))
  (values.insertionSort (· ≥ ·)).head?

/-- Method `Page::left`: collect every line's `x`, sort ascending, take the
first element; panic on no lines modelled by `Option`. -/
def Page.left (p : Page) : Option ℚ :=
  let values := p.blocks.flatMap (fun block => block.lines.map (fun line => line.x))
  (values.insertionSort (· ≤ ·)).head?

/-- Method `Page::right`: collect every line's `x + width`, sort descending,
take the first element; panic on no lines modelled by `Option`. -/
def Page.right (p : Page) : Option ℚ :=
  let values := p.blocks.flatMap
    (fun block => block.lines.map (fun line => line.x + line.width))
  (values.insertionSort (· ≥ ·)).head?

/-- A point (struct `Point`). -/
structure Point where
  x : ℚ
  y : ℚ
deriving DecidableEq

/-- A rectangle held as its four corner points (struct `Coordinate`). -/
structure Coordinate where
  top_left : Point
  top_right : Point
  bottom_left : Point
  bottom_right : Point
deriving DecidableEq

/-- Constructor `Coordinate::from_rect`. -/
def Coordinate.from_rect (x1 y1 x2 y2 : ℚ) : Coordinate :=
  { top_left := { x := x1, y := y1 },
    top_right := { x := x2, y := y1 },
    bottom_left := { x := x1, y := y2 },
    bottom_right := { x := x2, y := y2 } }

/-- Constructor `Coordinate::from_object`. -/
def Coordinate.from_object (x y width height : ℚ) : Coordinate :=
  { top_left := { x := x, y := y },
    top_right := { x := x + width, y := y },
    bottom_left := { x := x, y := y + height },
    bottom_right := { x := x + width, y := y + height } }

/-- Method `Coordinate::width`. -/
def Coordinate.width (c : Coordinate) : ℚ := c.top_right.x - c.top_left.x

/-- Method `Coordinate::height`. -/
def Coordinate.height (c : Coordinate) : ℚ := c.bottom_left.y - c.top_left.y

/-- Method `Coordinate::is_intercept`: strict overlap test on both axes. -/
def Coordinate.is_intercept (c other : Coordinate) : Bool :=
  if c.top_left.x ≥ other.bottom_right.x ∨ c.bottom_right.x ≤ other.top_left.x then
    false
  else if c.top_left.y ≥ other.bottom_right.y ∨ c.bottom_right.y ≤ other.top_left.y then
    false
  else
    true

/-- Method `Coordinate::get_area`. -/
def Coordinate.get_area (c : Coordinate) : ℚ := c.width * c.height

/-- Method `Coordinate::intersection`. -/
def Coordinate.intersection (c other : Coordinate) : Coordinate :=
  Coordinate.from_rect
    (max c.top_left.x other.top_left.x)
    (max c.top_left.y other.top_left.y)
    (min c.bottom_right.x other.bottom_right.x)
    (min c.bottom_right.y other.bottom_right.y)

/-- Method `Coordinate::iou`: `0` when either axis overlap extent is `≤ 0`,
otherwise `inter_area / (area1 + area2 - inter_area)` with each rectangle's
own `width * height` as its area. -/
def Coordinate.iou (c other : Coordinate) : ℚ :=
  let dx := min c.bottom_right.x other.bottom_right.x -
    max c.top_left.x other.top_left.x
  let dy := min c.bottom_right.y other.bottom_right.y -
    max c.top_left.y other.top_left.y
  if dx ≤ 0 ∨ dy ≤ 0 then
    0
  else
    let area1 := c.width * c.height
    let area2 := other.width * other.height
    let inter_area := dx * dy
    inter_area / (area1 + area2 - inter_area)

/-- Median of a list of rationals, modelling `sci_rs::stats::median`: sort
ascending and take the middle element for odd lengths; for even lengths take
the mean of the two middle elements (the spec leaves the even tie-break open
and asks the implementer to pin it; this embedding pins interpolation, and
every theorem below uses this same `median` on both sides).  `none` on the
empty list models the failure of the estimator on empty input. -/
def median (l : List ℚ) : Option ℚ :=
  let s := l.insertionSort (· ≤ ·)
  if l.length = 0 then none
  else if l.length % 2 = 1 then some (s.getD (l.length / 2) 0)
  else some ((s.getD (l.length / 2 - 1) 0 + s.getD (l.length / 2) 0) / 2)

/-- Function `get_text_area`: push each page's four extents, then take the
four per-axis medians and assemble the text-area rectangle.  A page with no
lines makes the extent calls panic and an empty page list makes the medians
fail; both are modelled by `Option`. -/
def get_text_area (pages : List Page) : Option Coordinate := do
  let left_values ← pages.mapM Page.left
  let right_values ← pages.mapM Page.right
  let top_values ← pages.mapM Page.top
  let bottom_values ← pages.mapM Page.bottom
  let left ← median left_values
  let right ← median right_values
  let top ← median top_values
  let bottom ← median bottom_values
  return { top_left := { x := left, y := top },
           top_right := { x := right, y := top },
           bottom_left := { x := left, y := bottom },
           bottom_right := { x := right, y := bottom } }

/-- Function `get_font_sizes`: compute the text area, push the height of every
line that is mostly inside it, and return the median of those heights. -/
def get_font_sizes (pages : List Page) : Option ℚ := do
  let text_area ← get_text_area pages
  let font_sizes := pages.flatMap (fun page =>
    page.blocks.flatMap (fun block =>
      block.lines.filterMap (fun line =>
        let line_coord := Coordinate.from_object line.x line.y line.width line.height
        let iou := text_area.iou line_coord
        let intersection := (text_area.intersection line_coord).get_area
        let line_area := line_coord.get_area
        if iou > 0 ∧ intersection / line_area > 9 / 10 then some line.height
        else none)))
  median font_sizes

/-- Function `get_block_attr`: the per-block three-way decision. -/
def get_block_attr (block : Block) (font_size : ℚ) (text_area : Coordinate) :
    BlockAttr :=
  let num_lines := block.lines.length
  let block_font_size :=
    (block.lines.map (fun line => line.height)).sum / (num_lines : ℚ)
  let block_coord := Coordinate.from_object block.x block.y block.width block.height
  let iou := text_area.iou block_coord
  let intersection := (text_area.intersection block_coord).get_area
  let block_area := block_coord.get_area
  let is_in_text_area := iou > 0 ∧ intersection / block_area > 9 / 10
  if is_in_text_area ∧ num_lines = 1 ∧ block_font_size > font_size then
    BlockAttr.Title
  else if is_in_text_area ∧ num_lines > 1 then
    BlockAttr.Text
  else
    BlockAttr.Else

/-- Errors of model construction, following the spec's taxonomy: a missing or
unparsable required numeric attribute (the Rust `attr(..).unwrap()` /
`parse().unwrap()` panics), and an estimator invoked over zero elements. -/
inductive ParseErr where
  | malformedInput
  | emptyCollection
deriving DecidableEq

/-- A raw `word` node of the input record tree: each required numeric
attribute is `some` value when present and parsable, `none` otherwise. -/
structure WordNode where
  xmin : Option ℚ
  ymin : Option ℚ
  xmax : Option ℚ
  ymax : Option ℚ
  text : String
deriving DecidableEq

/-- A raw `line` node of the input record tree. -/
structure LineNode where
  xmin : Option ℚ
  ymin : Option ℚ
  xmax : Option ℚ
  ymax : Option ℚ
  words : List WordNode
deriving DecidableEq

/-- A raw `block` node of the input record tree. -/
structure BlockNode where
  xmin : Option ℚ
  ymin : Option ℚ
  xmax : Option ℚ
  ymax : Option ℚ
  lines : List LineNode
deriving DecidableEq

/-- A raw `page` node of the input record tree. -/
structure PageNode where
  width : Option ℚ
  height : Option ℚ
  blocks : List BlockNode
deriving DecidableEq

/-- Reading a required numeric attribute: `attr(..).unwrap().parse().unwrap()`
panics when the attribute is missing or unparsable, modelled as
`Except.error ParseErr.malformedInput`. -/
def reqAttr (v : Option ℚ) : Except ParseErr ℚ :=
  match v with
  | some q => Except.ok q
  | none => Except.error ParseErr.malformedInput

/-- The word loop body of `parse_html`: read the four coordinates and push the
word (with trimmed text, via `Line::add_word`) onto the line. -/
def parseWordNode (l : Line) (w : WordNode) : Except ParseErr Line := do
  let word_xmin ← reqAttr w.xmin
  let word_ymin ← reqAttr w.ymin
  let word_xmax ← reqAttr w.xmax
  let word_ymax ← reqAttr w.ymax
  return l.add_word w.text word_xmin word_ymin (word_xmax - word_xmin)
    (word_ymax - word_ymin)

/-- The line loop body of `parse_html`: read the four coordinates, build the
line, then fold the word loop over its words. -/
def parseLineNode (ln : LineNode) : Except ParseErr Line := do
  let line_xmin ← reqAttr ln.xmin
  let line_ymin ← reqAttr ln.ymin
  let line_xmax ← reqAttr ln.xmax
  let line_ymax ← reqAttr ln.ymax
  ln.words.foldlM parseWordNode
    (Line.new line_xmin line_ymin (line_xmax - line_xmin) (line_ymax - line_ymin))

/-- The block loop body of `parse_html`: read the four coordinates, build the
block, then parse and push each line. -/
def parseBlockNode (bn : BlockNode) : Except ParseErr Block := do
  let block_xmin ← reqAttr bn.xmin
  let block_ymin ← reqAttr bn.ymin
  let block_xmax ← reqAttr bn.xmax
  let block_ymax ← reqAttr bn.ymax
  let lines ← bn.lines.mapM parseLineNode
  return { Block.new block_xmin block_ymin (block_xmax - block_xmin)
      (block_ymax - block_ymin) with lines := lines }

/-- The page loop body of `parse_html`: read width and height, build the page,
then parse and push each block. -/
def parsePageNode (pn : PageNode) : Except ParseErr Page := do
  let page_width ← reqAttr pn.width
  let page_height ← reqAttr pn.height
  let blocks ← pn.blocks.mapM parseBlockNode
  return { Page.new page_width page_height with blocks := blocks }

/-- The classification pass at the end of `parse_html`: set every block's
attribute from `get_block_attr`. -/
def classify (pages : List Page) (font_size : ℚ) (text_area : Coordinate) :
    List Page :=
  pages.map (fun page =>
    { page with blocks := page.blocks.map (fun block =>
        { block with attr := get_block_attr block font_size text_area }) })

/-- Lifting an estimator result: a `none` (a panic of the Rust code inside
`get_font_sizes` / `get_text_area` on an empty collection) becomes
`ParseErr.emptyCollection`. -/
def orEmpty {α : Type} (v : Option α) : Except ParseErr α :=
  match v with
  | some a => Except.ok a
  | none => Except.error ParseErr.emptyCollection

/-- Function `parse_html`: build the page tree from the record tree, then run
the two estimators and the classification pass. -/
def parse_html (doc : List PageNode) : Except ParseErr (List Page) := do
  let pages ← doc.mapM parsePageNode
  let font_size ← orEmpty (get_font_sizes pages)
  let text_area ← orEmpty (get_text_area pages)
  return classify pages font_size text_area

/-- A word node with a missing or unparsable required numeric field. -/
def WordNode.malformed (w : WordNode) : Bool :=
  w.xmin.isNone || w.ymin.isNone || w.xmax.isNone || w.ymax.isNone

/-- A line node with a missing required numeric field somewhere in it. -/
def LineNode.malformed (ln : LineNode) : Bool :=
  ln.xmin.isNone || ln.ymin.isNone || ln.xmax.isNone || ln.ymax.isNone ||
    ln.words.any WordNode.malformed

/-- A block node with a missing required numeric field somewhere in it. -/
def BlockNode.malformed (bn : BlockNode) : Bool :=
  bn.xmin.isNone || bn.ymin.isNone || bn.xmax.isNone || bn.ymax.isNone ||
    bn.lines.any LineNode.malformed

/-- A page node with a missing required numeric field somewhere in it. -/
def PageNode.malformed (pn : PageNode) : Bool :=
  pn.width.isNone || pn.height.isNone || pn.blocks.any BlockNode.malformed

/-- A record tree with a missing required numeric field on some node. -/
def docMalformed (doc : List PageNode) : Bool :=
  doc.any PageNode.malformed

/-! Spec-side formulations used by the theorem statements. -/

/-- The spec's line membership test: `IoU(line, text_area) > 0` and
`area(intersection(line, text_area)) / area(line) > 0.9`. -/
def line_in_text_area (text_area : Coordinate) (line : Line) : Prop :=
  let line_coord := Coordinate.from_object line.x line.y line.width line.height
  line_coord.iou text_area > 0 ∧
    (line_coord.intersection text_area).get_area / line_coord.get_area > 9 / 10

instance (ta : Coordinate) (l : Line) : Decidable (line_in_text_area ta l) := by
  unfold line_in_text_area
  exact inferInstance

/-- The spec's block membership test: `IoU(block, text_area) > 0` and
`area(intersection(block, text_area)) / area(block) > 0.9`. -/
def block_in_text_area (text_area : Coordinate) (block : Block) : Prop :=
  let block_coord := Coordinate.from_object block.x block.y block.width block.height
  block_coord.iou text_area > 0 ∧
    (block_coord.intersection text_area).get_area / block_coord.get_area > 9 / 10

instance (ta : Coordinate) (b : Block) : Decidable (block_in_text_area ta b) := by
  unfold block_in_text_area
  exact inferInstance

/-- Every line of the document, in document order. -/
def doc_lines (pages : List Page) : List Line :=
  pages.flatMap (fun page => page.blocks.flatMap (fun block => block.lines))

/-- Every line of a page, in page order. -/
def page_lines (p : Page) : List Line :=
  p.blocks.flatMap (fun block => block.lines)

/-- The `y` values scanned by `Page::top`. -/
def page_line_ys (p : Page) : List ℚ :=
  p.blocks.flatMap (fun block => block.lines.map (fun line => line.y))

/-- The `y + height` values scanned by `Page::bottom`. -/
def page_line_bottoms (p : Page) : List ℚ :=
  p.blocks.flatMap (fun block => block.lines.map (fun line => line.y + line.height))

/-- The `x` values scanned by `Page::left`. -/
def page_line_xs (p : Page) : List ℚ :=
  p.blocks.flatMap (fun block => block.lines.map (fun line => line.x))

/-- The `x + width` values scanned by `Page::right`. -/
def page_line_rights (p : Page) : List ℚ :=
  p.blocks.flatMap (fun block => block.lines.map (fun line => line.x + line.width))

/-! Helper lemmas. -/

/-- The head of an ascending insertion sort is the minimum of the list. -/
theorem head?_insertionSort_asc (l : List ℚ) :
    (l.insertionSort (· ≤ ·)).head? = l.min? := by
  rcases h : l.insertionSort (· ≤ ·) with _ | ⟨a, t⟩
  · have hp := List.perm_insertionSort (· ≤ ·) l
    rw [h] at hp
    rw [hp.nil_eq.symm]
    rfl
  · have hp := List.perm_insertionSort (· ≤ ·) l
    rw [h] at hp
    have hs := List.sorted_insertionSort (· ≤ ·) l
    rw [h] at hs
    have hmem : a ∈ l := hp.mem_iff.mp (List.mem_cons_self a t)
    have hlb : ∀ b ∈ l, a ≤ b := by
      intro b hb
      rcases List.mem_cons.mp (hp.mem_iff.mpr hb) with hba | hbt
      · exact le_of_eq hba.symm
      · exact List.rel_of_sorted_cons hs b hbt
    have hmin : l.min? = some a := by
      haveI : Std.Antisymm ((· : ℚ) ≤ ·) := ⟨fun h1 h2 => le_antisymm h1 h2⟩
      exact (List.min?_eq_some_iff (fun x => le_refl x) (fun x y => min_choice x y)
        (fun x y z => le_min_iff)).mpr ⟨hmem, hlb⟩
    rw [hmin]
    rfl

/-- The head of a descending insertion sort is the maximum of the list. -/
theorem head?_insertionSort_desc (l : List ℚ) :
    (l.insertionSort (· ≥ ·)).head? = l.max? := by
  rcases h : l.insertionSort (· ≥ ·) with _ | ⟨a, t⟩
  · have hp := List.perm_insertionSort (· ≥ ·) l
    rw [h] at hp
    rw [hp.nil_eq.symm]
    rfl
  · have hp := List.perm_insertionSort (· ≥ ·) l
    rw [h] at hp
    have hs := List.sorted_insertionSort (· ≥ ·) l
    rw [h] at hs
    have hmem : a ∈ l := hp.mem_iff.mp (List.mem_cons_self a t)
    have hub : ∀ b ∈ l, b ≤ a := by
      intro b hb
      rcases List.mem_cons.mp (hp.mem_iff.mpr hb) with hba | hbt
      · exact le_of_eq hba
      · exact List.rel_of_sorted_cons hs b hbt
    have hmax : l.max? = some a := by
      haveI : Std.Antisymm ((· : ℚ) ≤ ·) := ⟨fun h1 h2 => le_antisymm h1 h2⟩
      exact (List.max?_eq_some_iff (fun x => le_refl x) (fun x y => max_choice x y)
        (fun x y z => max_le_iff)).mpr ⟨hmem, hub⟩
    rw [hmax]
    rfl

/-- The IoU of rectangles is symmetric. -/
theorem iou_comm (a b : Coordinate) : a.iou b = b.iou a := by
  simp only [Coordinate.iou]
  rw [min_comm b.bottom_right.x, max_comm b.top_left.x, min_comm b.bottom_right.y,
    max_comm b.top_left.y, add_comm (b.width * b.height)]

/-- The intersection of rectangles is symmetric. -/
theorem intersection_comm (a b : Coordinate) :
    a.intersection b = b.intersection a := by
  simp only [Coordinate.intersection]
  rw [max_comm b.top_left.x, max_comm b.top_left.y, min_comm b.bottom_right.x,
    min_comm b.bottom_right.y]

/-- A `filterMap` with an if-then-else body is a filter followed by a map. -/
theorem filterMap_ite_eq_filter_map {α β : Type} (p : α → Prop) [DecidablePred p]
    (f : α → β) (l : List α) :
    l.filterMap (fun x => if p x then some (f x) else none) =
      (l.filter (fun x => decide (p x))).map f := by
  induction l with
  | nil => rfl
  | cons a t ih =>
    by_cases h : p a <;> simp [h, ih]

/-- Bounds of `iou` on rectangles built from two opposite corners: the result
is always in `[0, 1]`, degenerate and malformed corners included. -/
theorem iou_nonneg_and_le_one (ax1 ay1 ax2 ay2 bx1 by1 bx2 by2 : ℚ) :
    0 ≤ (Coordinate.from_rect ax1 ay1 ax2 ay2).iou
        (Coordinate.from_rect bx1 by1 bx2 by2) ∧
      (Coordinate.from_rect ax1 ay1 ax2 ay2).iou
        (Coordinate.from_rect bx1 by1 bx2 by2) ≤ 1 := by
  simp only [Coordinate.iou, Coordinate.from_rect, Coordinate.width, Coordinate.height]
  by_cases h : min ax2 bx2 - max ax1 bx1 ≤ 0 ∨ min ay2 by2 - max ay1 by1 ≤ 0
  · rw [if_pos h]
    norm_num
  · rw [if_neg h]
    push_neg at h
    obtain ⟨hdx, hdy⟩ := h
    have hwa : min ax2 bx2 - max ax1 bx1 ≤ ax2 - ax1 :=
      sub_le_sub (min_le_left _ _) (le_max_left _ _)
    have hha : min ay2 by2 - max ay1 by1 ≤ ay2 - ay1 :=
      sub_le_sub (min_le_left _ _) (le_max_left _ _)
    have hwb : min ax2 bx2 - max ax1 bx1 ≤ bx2 - bx1 :=
      sub_le_sub (min_le_right _ _) (le_max_right _ _)
    have hhb : min ay2 by2 - max ay1 by1 ≤ by2 - by1 :=
      sub_le_sub (min_le_right _ _) (le_max_right _ _)
    have harea1 : (min ax2 bx2 - max ax1 bx1) * (min ay2 by2 - max ay1 by1) ≤
        (ax2 - ax1) * (ay2 - ay1) :=
      mul_le_mul hwa hha hdy.le (by linarith)
    have harea2 : (min ax2 bx2 - max ax1 bx1) * (min ay2 by2 - max ay1 by1) ≤
        (bx2 - bx1) * (by2 - by1) :=
      mul_le_mul hwb hhb hdy.le (by linarith)
    have hinter : 0 < (min ax2 bx2 - max ax1 bx1) * (min ay2 by2 - max ay1 by1) :=
      mul_pos hdx hdy
    have hdenom : 0 < (ax2 - ax1) * (ay2 - ay1) + (bx2 - bx1) * (by2 - by1) -
        (min ax2 bx2 - max ax1 bx1) * (min ay2 by2 - max ay1 by1) := by
      linarith
    constructor
    · exact div_nonneg hinter.le hdenom.le
    · rw [div_le_one hdenom]
      linarith

/-- C5: `iou` returns `0` whenever the overlap extent on either axis (minimum
of the bottom-right coordinates minus maximum of the top-left coordinates) is
`≤ 0`, and otherwise returns `inter_area / (area_a + area_b - inter_area)`
with each rectangle's own `width * height` as its area; on `a = [0,0,10,10]`
and `b = [5,5,15,15]` the rectangles overlap, the intersection is
`[5,5,10,10]` and the IoU is `25/175`. -/
theorem iou_formula_c5 :
    (∀ a b : Coordinate,
      min a.bottom_right.x b.bottom_right.x - max a.top_left.x b.top_left.x ≤ 0 ∨
        min a.bottom_right.y b.bottom_right.y - max a.top_left.y b.top_left.y ≤ 0 →
      a.iou b = 0) ∧
    (∀ a b : Coordinate,
      0 < min a.bottom_right.x b.bottom_right.x - max a.top_left.x b.top_left.x →
      0 < min a.bottom_right.y b.bottom_right.y - max a.top_left.y b.top_left.y →
      a.iou b =
        (min a.bottom_right.x b.bottom_right.x - max a.top_left.x b.top_left.x) *
            (min a.bottom_right.y b.bottom_right.y - max a.top_left.y b.top_left.y) /
          (a.width * a.height + b.width * b.height -
            (min a.bottom_right.x b.bottom_right.x - max a.top_left.x b.top_left.x) *
              (min a.bottom_right.y b.bottom_right.y - max a.top_left.y b.top_left.y))) ∧
    (Coordinate.from_rect 0 0 10 10).is_intercept (Coordinate.from_rect 5 5 15 15) = true ∧
    (Coordinate.from_rect 0 0 10 10).intersection (Coordinate.from_rect 5 5 15 15) =
      Coordinate.from_rect 5 5 10 10 ∧
    (Coordinate.from_rect 0 0 10 10).iou (Coordinate.from_rect 5 5 15 15) = 25 / 175 := by
  refine ⟨?_, ?_, by decide,
    by norm_num [Coordinate.intersection, Coordinate.from_rect, min_def, max_def],
    by norm_num [Coordinate.iou, Coordinate.from_rect, Coordinate.width,
      Coordinate.height, min_def, max_def]⟩
  · intro a b h
    simp only [Coordinate.iou]
    rw [if_pos h]
  · intro a b h1 h2
    simp only [Coordinate.iou]
    rw [if_neg (by rw [not_or, not_le, not_le]; exact ⟨h1, h2⟩)]

/-- Witness for C5 at concrete inputs: disjoint rectangles have IoU `0`, and
the overlapping example evaluates through the general formula. -/
theorem iou_formula_c5_witness :
    (Coordinate.from_rect 0 0 1 1).iou (Coordinate.from_rect 5 5 6 6) = 0 ∧
    (Coordinate.from_rect 0 0 10 10).iou (Coordinate.from_rect 5 5 15 15) =
      5 * 5 / (10 * 10 + 10 * 10 - 5 * 5) :=
  ⟨iou_formula_c5.1 _ _ (by norm_num [Coordinate.from_rect, min_def, max_def]),
    (iou_formula_c5.2.1 (Coordinate.from_rect 0 0 10 10)
      (Coordinate.from_rect 5 5 15 15)
      (by norm_num [Coordinate.from_rect, min_def, max_def])
      (by norm_num [Coordinate.from_rect, min_def, max_def])).trans
      (by norm_num [Coordinate.from_rect, Coordinate.width, Coordinate.height,
        min_def, max_def])⟩

/-- C6 as stated is false: on a degenerate rectangle the self-IoU is `0`,
not `1`, because the axis overlap extents are `0`. -/
theorem iou_self_degenerate_c6 :
    (Coordinate.from_rect 0 0 0 0).iou (Coordinate.from_rect 0 0 0 0) ≠ 1 := by
  norm_num [Coordinate.iou, Coordinate.from_rect, min_def, max_def]

/-- C6 amended: for all rectangles built from two opposite corners, `iou` is
symmetric and bounded by `0 ≤ iou ≤ 1`; `iou(a,a) = 1` holds for
non-degenerate rectangles (positive width and height). -/
theorem iou_symm_bounded_c6 (ax1 ay1 ax2 ay2 bx1 by1 bx2 by2 : ℚ) :
    (Coordinate.from_rect ax1 ay1 ax2 ay2).iou (Coordinate.from_rect bx1 by1 bx2 by2) =
      (Coordinate.from_rect bx1 by1 bx2 by2).iou (Coordinate.from_rect ax1 ay1 ax2 ay2) ∧
    0 ≤ (Coordinate.from_rect ax1 ay1 ax2 ay2).iou (Coordinate.from_rect bx1 by1 bx2 by2) ∧
    (Coordinate.from_rect ax1 ay1 ax2 ay2).iou (Coordinate.from_rect bx1 by1 bx2 by2) ≤ 1 ∧
    (ax1 < ax2 → ay1 < ay2 →
      (Coordinate.from_rect ax1 ay1 ax2 ay2).iou (Coordinate.from_rect ax1 ay1 ax2 ay2) = 1) := by
  refine ⟨iou_comm _ _, (iou_nonneg_and_le_one ..).1, (iou_nonneg_and_le_one ..).2, ?_⟩
  intro hx hy
  simp only [Coordinate.iou, Coordinate.from_rect, Coordinate.width, Coordinate.height]
  rw [if_neg]
  · rw [min_self, max_self, min_self, max_self]
    have hx' : 0 < ax2 - ax1 := by linarith
    have hy' : 0 < ay2 - ay1 := by linarith
    have harea : 0 < (ax2 - ax1) * (ay2 - ay1) := mul_pos hx' hy'
    rw [show (ax2 - ax1) * (ay2 - ay1) + (ax2 - ax1) * (ay2 - ay1) -
        (ax2 - ax1) * (ay2 - ay1) = (ax2 - ax1) * (ay2 - ay1) by ring]
    exact div_self harea.ne.symm
  · rw [min_self, max_self, min_self, max_self, not_or, not_le, not_le]
    constructor <;> linarith

/-- Witness for C6 at a concrete input: the self-IoU of `[0,0,10,10]` is `1`. -/
theorem iou_symm_bounded_c6_witness :
    (Coordinate.from_rect 0 0 10 10).iou (Coordinate.from_rect 0 0 10 10) = 1 :=
  (iou_symm_bounded_c6 0 0 10 10 5 5 15 15).2.2.2 (by norm_num) (by norm_num)

/-- The code's membership test for a block (`text_area.iou(block)` first) is
the spec's test (`IoU(block, text_area)` first), by symmetry. -/
theorem code_block_membership_iff (ta : Coordinate) (b : Block) :
    (ta.iou (Coordinate.from_object b.x b.y b.width b.height) > 0 ∧
      (ta.intersection (Coordinate.from_object b.x b.y b.width b.height)).get_area /
        (Coordinate.from_object b.x b.y b.width b.height).get_area > 9 / 10) ↔
    block_in_text_area ta b := by
  unfold block_in_text_area
  rw [iou_comm, intersection_comm]

/-- C1: for a block with at least one line, `get_block_attr` is exactly the
first-match decision: in the text area with one oversized line gives `Title`;
in the text area with more than one line gives `Text`; otherwise `Else`. -/
theorem get_block_attr_decision_c1 (block : Block) (font_size : ℚ)
    (text_area : Coordinate) (h : 1 ≤ block.lines.length) :
    get_block_attr block font_size text_area =
      if block_in_text_area text_area block ∧ block.lines.length = 1 ∧
          (block.lines.map (fun line => line.height)).sum /
            (block.lines.length : ℚ) > font_size then
        BlockAttr.Title
      else if block_in_text_area text_area block ∧ block.lines.length > 1 then
        BlockAttr.Text
      else
        BlockAttr.Else := by
  simp only [get_block_attr]
  simp only [code_block_membership_iff]

/-- Witness for C1: a single line of height `20`, normal font size `12`,
block inside the text area, classifies as `Title`. -/
theorem get_block_attr_decision_c1_witness :
    get_block_attr
        { lines := [{ words := [], x := 0, y := 0, width := 10, height := 20 }],
          x := 0, y := 0, width := 10, height := 20, attr := BlockAttr.Else }
        12 (Coordinate.from_rect 0 0 10 20) = BlockAttr.Title := by
  rw [get_block_attr_decision_c1 _ _ _ (by decide)]
  norm_num [block_in_text_area, Coordinate.iou, Coordinate.intersection,
    Coordinate.get_area, Coordinate.from_object, Coordinate.from_rect,
    Coordinate.width, Coordinate.height, min_def, max_def]

/-- A block's attribute field does not feed into its classification. -/
theorem get_block_attr_ignores_attr (b : Block) (a : BlockAttr) (fs : ℚ)
    (ta : Coordinate) :
    get_block_attr { b with attr := a } fs ta = get_block_attr b fs ta := rfl

/-- C9: the classification pass is idempotent: re-running it with the same
normal font size and text-area rectangle changes nothing, because the
attribute written by the first pass does not feed into the decision. -/
theorem classify_idempotent_c9 (pages : List Page) (fs : ℚ) (ta : Coordinate) :
    classify (classify pages fs ta) fs ta = classify pages fs ta := by
  unfold classify
  rw [List.map_map]
  refine List.map_congr_left fun p _ => ?_
  simp only [Function.comp_def, List.map_map]
  congr 1

/-- C10: a block with zero lines classifies as `Else` without failing: neither
the `Title` branch (which needs exactly one line) nor the `Text` branch (which
needs more than one line) can fire. -/
theorem get_block_attr_no_lines_c10 (b : Block) (fs : ℚ) (ta : Coordinate)
    (h : b.lines = []) :
    get_block_attr b fs ta = BlockAttr.Else := by
  simp [get_block_attr, h]

/-- Witness for C10: a freshly constructed empty block classifies as `Else`. -/
theorem get_block_attr_no_lines_c10_witness :
    get_block_attr (Block.new 0 0 0 0) 12 (Coordinate.from_rect 0 0 10 10) =
      BlockAttr.Else :=
  get_block_attr_no_lines_c10 _ _ _ rfl

/-- The extent of `Page::top` is the minimum scanned `y`. -/
theorem page_top_eq (p : Page) : Page.top p = (page_line_ys p).min? :=
  head?_insertionSort_asc _

/-- The extent of `Page::bottom` is the maximum scanned `y + height`. -/
theorem page_bottom_eq (p : Page) : Page.bottom p = (page_line_bottoms p).max? :=
  head?_insertionSort_desc _

/-- The extent of `Page::left` is the minimum scanned `x`. -/
theorem page_left_eq (p : Page) : Page.left p = (page_line_xs p).min? :=
  head?_insertionSort_asc _

/-- The extent of `Page::right` is the maximum scanned `x + width`. -/
theorem page_right_eq (p : Page) : Page.right p = (page_line_rights p).max? :=
  head?_insertionSort_desc _

/-- The scanned `y` values are the `y` of each line of the page. -/
theorem page_line_ys_eq (p : Page) :
    page_line_ys p = (page_lines p).map (fun line => line.y) := by
  unfold page_line_ys page_lines
  rw [List.map_flatMap]

/-- The scanned `y + height` values are those of each line of the page. -/
theorem page_line_bottoms_eq (p : Page) :
    page_line_bottoms p = (page_lines p).map (fun line => line.y + line.height) := by
  unfold page_line_bottoms page_lines
  rw [List.map_flatMap]

/-- The scanned `x` values are the `x` of each line of the page. -/
theorem page_line_xs_eq (p : Page) :
    page_line_xs p = (page_lines p).map (fun line => line.x) := by
  unfold page_line_xs page_lines
  rw [List.map_flatMap]

/-- The scanned `x + width` values are those of each line of the page. -/
theorem page_line_rights_eq (p : Page) :
    page_line_rights p = (page_lines p).map (fun line => line.x + line.width) := by
  unfold page_line_rights page_lines
  rw [List.map_flatMap]

/-- C7: the four page extents scan every line of every block: `top` is the
minimum line `y`, `bottom` the maximum `y + height`, `left` the minimum `x`,
`right` the maximum `x + width`; on a page with zero lines all four fail
(return `none`). -/
theorem page_extents_c7 (p : Page) :
    Page.top p = ((page_lines p).map (fun line => line.y)).min? ∧
    Page.bottom p = ((page_lines p).map (fun line => line.y + line.height)).max? ∧
    Page.left p = ((page_lines p).map (fun line => line.x)).min? ∧
    Page.right p = ((page_lines p).map (fun line => line.x + line.width)).max? ∧
    (page_lines p = [] →
      Page.top p = none ∧ Page.bottom p = none ∧ Page.left p = none ∧
        Page.right p = none) := by
  refine ⟨by rw [page_top_eq, page_line_ys_eq],
    by rw [page_bottom_eq, page_line_bottoms_eq],
    by rw [page_left_eq, page_line_xs_eq],
    by rw [page_right_eq, page_line_rights_eq], fun h => ?_⟩
  refine ⟨?_, ?_, ?_, ?_⟩
  · rw [page_top_eq, page_line_ys_eq, h]
    rfl
  · rw [page_bottom_eq, page_line_bottoms_eq, h]
    rfl
  · rw [page_left_eq, page_line_xs_eq, h]
    rfl
  · rw [page_right_eq, page_line_rights_eq, h]
    rfl

/-- Witness for C7: a freshly constructed empty page has no lines, and all
four extents fail on it; a one-line page returns that line's extents. -/
theorem page_extents_c7_witness :
    Page.top (Page.new 0 0) = none ∧
    Page.top
        (Page.mk [Block.mk [Line.mk [] 1 2 3 4] 1 2 3 4 BlockAttr.Else] 10 10) =
      some 2 :=
  ⟨((page_extents_c7 (Page.new 0 0)).2.2.2.2 rfl).1,
    ((page_extents_c7 _).1).trans (by decide)⟩

/-- The median of a non-empty list is defined. -/
theorem median_isSome (l : List ℚ) (h : l ≠ []) : ∃ m, median l = some m := by
  have hlen : l.length ≠ 0 := by
    simpa [List.length_eq_zero] using h
  unfold median
  rw [if_neg hlen]
  split
  · exact ⟨_, rfl⟩
  · exact ⟨_, rfl⟩

/-- An `Option`-valued `mapM` over a list where every call succeeds returns
the list of unwrapped values. -/
theorem mapM_option_eq_map {α β : Type} (f : α → Option β) (d : β) (l : List α)
    (h : ∀ x ∈ l, (f x).isSome) :
    l.mapM f = some (l.map (fun x => (f x).getD d)) := by
  induction l with
  | nil => rfl
  | cons a t ih =>
    obtain ⟨b, hb⟩ := Option.isSome_iff_exists.mp (h a (List.mem_cons_self a t))
    have ih' := ih (fun x hx => h x (List.mem_cons_of_mem _ hx))
    rw [List.mapM_cons, hb, ih']
    simp [hb]

/-- A page with at least one line has a defined `left` extent. -/
theorem page_left_isSome (p : Page) (h : page_lines p ≠ []) :
    (Page.left p).isSome := by
  rw [page_left_eq, page_line_xs_eq]
  rw [Option.isSome_iff_ne_none]
  intro hn
  rw [List.min?_eq_none_iff, List.map_eq_nil_iff] at hn
  exact h hn

/-- A page with at least one line has a defined `right` extent. -/
theorem page_right_isSome (p : Page) (h : page_lines p ≠ []) :
    (Page.right p).isSome := by
  rw [page_right_eq, page_line_rights_eq]
  rw [Option.isSome_iff_ne_none]
  intro hn
  rw [List.max?_eq_none_iff, List.map_eq_nil_iff] at hn
  exact h hn

/-- A page with at least one line has a defined `top` extent. -/
theorem page_top_isSome (p : Page) (h : page_lines p ≠ []) :
    (Page.top p).isSome := by
  rw [page_top_eq, page_line_ys_eq]
  rw [Option.isSome_iff_ne_none]
  intro hn
  rw [List.min?_eq_none_iff, List.map_eq_nil_iff] at hn
  exact h hn

/-- A page with at least one line has a defined `bottom` extent. -/
theorem page_bottom_isSome (p : Page) (h : page_lines p ≠ []) :
    (Page.bottom p).isSome := by
  rw [page_bottom_eq, page_line_bottoms_eq]
  rw [Option.isSome_iff_ne_none]
  intro hn
  rw [List.max?_eq_none_iff, List.map_eq_nil_iff] at hn
  exact h hn

/-- C3: on a non-empty list of pages each having at least one line,
`get_text_area` returns the rectangle whose left, top, right and bottom edges
are the four independent per-axis medians of the per-page extents; on zero
pages it fails. -/
theorem get_text_area_medians_c3 :
    (∀ pages : List Page, pages ≠ [] → (∀ p ∈ pages, page_lines p ≠ []) →
      ∃ l r t b,
        median (pages.map (fun p => (Page.left p).getD 0)) = some l ∧
        median (pages.map (fun p => (Page.right p).getD 0)) = some r ∧
        median (pages.map (fun p => (Page.top p).getD 0)) = some t ∧
        median (pages.map (fun p => (Page.bottom p).getD 0)) = some b ∧
        get_text_area pages = some (Coordinate.from_rect l t r b)) ∧
    get_text_area ([] : List Page) = none := by
  constructor
  · intro pages hne hlines
    have hl := mapM_option_eq_map Page.left 0 pages
      (fun p hp => page_left_isSome p (hlines p hp))
    have hr := mapM_option_eq_map Page.right 0 pages
      (fun p hp => page_right_isSome p (hlines p hp))
    have ht := mapM_option_eq_map Page.top 0 pages
      (fun p hp => page_top_isSome p (hlines p hp))
    have hb := mapM_option_eq_map Page.bottom 0 pages
      (fun p hp => page_bottom_isSome p (hlines p hp))
    have hmapne : ∀ g : Page → ℚ, pages.map g ≠ [] := by
      intro g hn
      rw [List.map_eq_nil_iff] at hn
      exact hne hn
    obtain ⟨lm, hlm⟩ := median_isSome _ (hmapne (fun p => (Page.left p).getD 0))
    obtain ⟨rm, hrm⟩ := median_isSome _ (hmapne (fun p => (Page.right p).getD 0))
    obtain ⟨tm, htm⟩ := median_isSome _ (hmapne (fun p => (Page.top p).getD 0))
    obtain ⟨bm, hbm⟩ := median_isSome _ (hmapne (fun p => (Page.bottom p).getD 0))
    refine ⟨lm, rm, tm, bm, hlm, hrm, htm, hbm, ?_⟩
    unfold get_text_area
    rw [hl, hr, ht, hb]
    simp [hlm, hrm, htm, hbm, Coordinate.from_rect]
  · rfl

/-- Witness for C3 on a concrete one-page document: the text area is the
rectangle of that page's extents, and the medians evaluate accordingly. -/
theorem get_text_area_medians_c3_witness :
    get_text_area [Page.mk [Block.mk [Line.mk [] 1 2 3 4] 1 2 3 4 BlockAttr.Else] 10 10] =
      some (Coordinate.from_rect 1 2 4 6) := by
  obtain ⟨l, r, t, b, hl, hr, ht, hb, hc⟩ :=
    get_text_area_medians_c3.1
      [Page.mk [Block.mk [Line.mk [] 1 2 3 4] 1 2 3 4 BlockAttr.Else] 10 10]
      (by decide) (by decide)
  obtain rfl : l = 1 := Option.some.inj (hl.symm.trans
    (by norm_num [median, Page.left, List.insertionSort, List.orderedInsert]))
  obtain rfl : r = 4 := Option.some.inj (hr.symm.trans
    (by norm_num [median, Page.right, List.insertionSort, List.orderedInsert]))
  obtain rfl : t = 2 := Option.some.inj (ht.symm.trans
    (by norm_num [median, Page.top, List.insertionSort, List.orderedInsert]))
  obtain rfl : b = 6 := Option.some.inj (hb.symm.trans
    (by norm_num [median, Page.bottom, List.insertionSort, List.orderedInsert]))
  exact hc

/-- The code's membership test for a line (`text_area.iou(line)` first) is
the spec's test (`IoU(line, text_area)` first), by symmetry. -/
theorem code_line_membership_iff (ta : Coordinate) (l : Line) :
    (ta.iou (Coordinate.from_object l.x l.y l.width l.height) > 0 ∧
      (ta.intersection (Coordinate.from_object l.x l.y l.width l.height)).get_area /
        (Coordinate.from_object l.x l.y l.width l.height).get_area > 9 / 10) ↔
    line_in_text_area ta l := by
  unfold line_in_text_area
  rw [iou_comm, intersection_comm]

/-- C2: once the text area is computed, `get_font_sizes` is the median of the
heights of exactly the lines passing the membership test; lines failing either
conjunct contribute nothing, and a non-empty set of qualifying lines yields a
defined result. -/
theorem get_font_sizes_median_c2 (pages : List Page) (ta : Coordinate)
    (hta : get_text_area pages = some ta) :
    get_font_sizes pages =
      median (((doc_lines pages).filter
          (fun line => decide (line_in_text_area ta line))).map
        (fun line => line.height)) ∧
    ((doc_lines pages).filter (fun line => decide (line_in_text_area ta line)) ≠ [] →
      (get_font_sizes pages).isSome) := by
  have hmain : get_font_sizes pages =
      median (((doc_lines pages).filter
          (fun line => decide (line_in_text_area ta line))).map
        (fun line => line.height)) := by
    unfold get_font_sizes
    rw [hta]
    simp only [Option.bind_eq_bind, Option.some_bind]
    congr 1
    simp only [code_line_membership_iff]
    rw [← filterMap_ite_eq_filter_map (line_in_text_area ta)
      (fun line => line.height) (doc_lines pages)]
    unfold doc_lines
    simp only [List.filterMap_flatMap]
  refine ⟨hmain, fun hne => ?_⟩
  rw [hmain]
  have hfil : ((doc_lines pages).filter
      (fun line => decide (line_in_text_area ta line))).map
        (fun line => line.height) ≠ [] := by
    intro hnil
    rw [List.map_eq_nil_iff] at hnil
    exact hne hnil
  obtain ⟨m, hm⟩ := median_isSome _ hfil
  rw [hm]
  rfl

/-- Witness for C2 on a concrete one-page document whose single line fills the
text area: the theorem applies and the qualifying set is non-empty. -/
theorem get_font_sizes_median_c2_witness :
    get_font_sizes [Page.mk [Block.mk [Line.mk [] 0 0 10 10] 0 0 10 10 BlockAttr.Else] 10 10] =
      median (((doc_lines
          [Page.mk [Block.mk [Line.mk [] 0 0 10 10] 0 0 10 10 BlockAttr.Else] 10 10]).filter
        (fun line => decide (line_in_text_area (Coordinate.from_rect 0 0 10 10) line))).map
        (fun line => line.height)) ∧
    (get_font_sizes
      [Page.mk [Block.mk [Line.mk [] 0 0 10 10] 0 0 10 10 BlockAttr.Else] 10 10]).isSome := by
  have h := get_font_sizes_median_c2
    [Page.mk [Block.mk [Line.mk [] 0 0 10 10] 0 0 10 10 BlockAttr.Else] 10 10]
    (Coordinate.from_rect 0 0 10 10)
    (by norm_num [get_text_area, List.mapM.loop, Option.bind, median,
      Page.left, Page.right, Page.top, Page.bottom,
      List.insertionSort, List.orderedInsert, Coordinate.from_rect])
  refine ⟨h.1, h.2 ?_⟩
  norm_num [doc_lines, line_in_text_area, Coordinate.iou, Coordinate.intersection,
    Coordinate.get_area, Coordinate.from_object, Coordinate.from_rect,
    Coordinate.width, Coordinate.height, min_def, max_def, List.filter]

/-- Folding string concatenation from any accumulator factors the
accumulator out front. -/
theorem str_foldl_append (as : List String) : ∀ acc : String,
    as.foldl (fun r s => r ++ s) acc = acc ++ as.foldl (fun r s => r ++ s) "" := by
  induction as with
  | nil =>
    intro acc
    simp
  | cons a t ih =>
    intro acc
    simp only [List.foldl_cons]
    rw [ih (acc ++ a), ih ("" ++ a), String.empty_append, String.append_assoc]

/-- Unfolding of `String.join` on a cons cell. -/
theorem str_join_cons (a : String) (as : List String) :
    String.join (a :: as) = a ++ String.join as := by
  show (a :: as).foldl (fun r s => r ++ s) "" = a ++ as.foldl (fun r s => r ++ s) ""
  rw [List.foldl_cons, String.empty_append, str_foldl_append]

/-- Characterization of the accumulator recursion of `String.intercalate`. -/
theorem intercalate_go_eq (s : String) (as : List String) : ∀ acc : String,
    String.intercalate.go acc s as = acc ++ String.join (as.map (fun a => s ++ a)) := by
  induction as with
  | nil =>
    intro acc
    simp [String.intercalate.go, String.join]
  | cons a t ih =>
    intro acc
    rw [String.intercalate.go, ih, List.map_cons, str_join_cons,
      String.append_assoc acc s a, String.append_assoc acc (s ++ a)]

/-- Moving a delimiter through a join from the right side to the left. -/
theorem str_join_shift (s : String) (as : List String) :
    s ++ String.join (as.map (fun t => t ++ s)) =
      String.join (as.map (fun t => s ++ t)) ++ s := by
  induction as with
  | nil =>
    simp [String.join]
  | cons a t ih =>
    rw [List.map_cons, str_join_cons, List.map_cons, str_join_cons,
      ← String.append_assoc, ← String.append_assoc, String.append_assoc (s ++ a),
      ih, ← String.append_assoc]

/-- Joining texts each followed by a newline is joining with newline
separators plus one trailing newline, for a non-empty list. -/
theorem str_join_newline_eq_intercalate (ts : List String) (h : ts ≠ []) :
    String.join (ts.map (fun t => t ++ "\n")) =
      String.intercalate "\n" ts ++ "\n" := by
  cases ts with
  | nil => exact absurd rfl h
  | cons a as =>
    rw [List.map_cons, str_join_cons,
      show String.intercalate "\n" (a :: as) = String.intercalate.go a "\n" as from rfl,
      intercalate_go_eq, String.append_assoc, str_join_shift, ← String.append_assoc]

/-- C8 as stated is false on a block with zero lines: the code yields the
empty string, while lines joined with newlines plus a trailing newline would
be a single newline. -/
theorem block_text_empty_c8 :
    (Block.new 0 0 0 0).get_text ≠
      String.intercalate "\n" ((Block.new 0 0 0 0).lines.map Line.get_text) ++ "\n" := by
  decide

/-- C8 amended: a word's text is trimmed at construction; a line's text is its
words' texts joined with single spaces; and the text of a block with at least
one line is its lines' texts joined with newlines plus a trailing newline (an
empty block yields the empty string instead). -/
theorem text_assembly_c8 :
    (∀ (l : Line) (text : String) (x y w h : ℚ),
      (l.add_word text x y w h).words = l.words ++ [Word.mk text.trim x y w h]) ∧
    (∀ l : Line, l.get_text = String.intercalate " " (l.words.map (fun w => w.text))) ∧
    (∀ b : Block, b.lines ≠ [] →
      b.get_text = String.intercalate "\n" (b.lines.map Line.get_text) ++ "\n") := by
  refine ⟨fun l text x y w h => rfl, fun l => rfl, fun b hb => ?_⟩
  have hform : Block.get_text b =
      String.join ((b.lines.map Line.get_text).map (fun t => t ++ "\n")) := by
    unfold Block.get_text
    rw [List.map_map]
    rfl
  rw [hform, str_join_newline_eq_intercalate]
  intro hnil
  rw [List.map_eq_nil_iff] at hnil
  exact hb hnil

/-- Witness for C8: a one-line block's text is that line's text followed by a
newline. -/
theorem text_assembly_c8_witness :
    (Block.mk [Line.mk [] 0 0 1 1] 0 0 1 1 BlockAttr.Else).get_text =
      String.intercalate "\n"
        ((Block.mk [Line.mk [] 0 0 1 1] 0 0 1 1 BlockAttr.Else).lines.map Line.get_text) ++
        "\n" :=
  text_assembly_c8.2.2 (Block.mk [Line.mk [] 0 0 1 1] 0 0 1 1 BlockAttr.Else)
    (by decide)

@[simp] theorem except_error_bind {α β : Type} (e : ParseErr)
    (f : α → Except ParseErr β) :
    (Except.error e : Except ParseErr α) >>= f = Except.error e := rfl

@[simp] theorem except_ok_bind {α β : Type} (a : α) (f : α → Except ParseErr β) :
    (Except.ok a : Except ParseErr α) >>= f = f a := rfl

@[simp] theorem except_pure_eq {α : Type} (a : α) :
    (pure a : Except ParseErr α) = Except.ok a := rfl

/-- A bind followed by a pure map preserves error results. -/
theorem bind_pure_error_eq {α β : Type} (m : Except ParseErr α) (g : α → β)
    (e : ParseErr) (h : (m >>= fun a => pure (g a)) = Except.error e) :
    m = Except.error e := by
  cases hm : m with
  | error e2 =>
    rw [hm, except_error_bind] at h
    injection h with h2
    rw [h2]
  | ok a =>
    rw [hm, except_ok_bind] at h
    exact absurd h (by simp)

/-- The word loop only ever fails with `malformedInput`. -/
theorem parseWordNode_error_eq (acc : Line) (w : WordNode) :
    ∀ e, parseWordNode acc w = Except.error e → e = ParseErr.malformedInput := by
  intro e h
  rcases w with ⟨(_ | x1), (_ | y1), (_ | x2), (_ | y2), t⟩ <;>
      simp [parseWordNode, reqAttr] at h <;>
    exact h.symm

/-- A well-formed word node parses successfully. -/
theorem parseWordNode_ok (acc : Line) (w : WordNode)
    (h : w.malformed = false) :
    ∃ l, parseWordNode acc w = Except.ok l := by
  rcases w with ⟨(_ | x1), (_ | y1), (_ | x2), (_ | y2), t⟩ <;>
      simp [WordNode.malformed] at h <;>
    exact ⟨_, rfl⟩

/-- A malformed word node aborts the word loop with `malformedInput`. -/
theorem parseWordNode_error_of_malformed (acc : Line) (w : WordNode)
    (h : w.malformed = true) :
    parseWordNode acc w = Except.error ParseErr.malformedInput := by
  rcases w with ⟨(_ | x1), (_ | y1), (_ | x2), (_ | y2), t⟩ <;>
      simp [WordNode.malformed] at h <;>
    rfl

/-- The word fold only ever fails with `malformedInput`. -/
theorem foldlM_parseWord_error_eq (ws : List WordNode) :
    ∀ (acc : Line) (e : ParseErr),
      ws.foldlM parseWordNode acc = Except.error e →
      e = ParseErr.malformedInput := by
  induction ws with
  | nil =>
    intro acc e h
    simp at h
  | cons w t ih =>
    intro acc e h
    rw [List.foldlM_cons] at h
    cases hw : parseWordNode acc w with
    | error e' =>
      rw [hw, except_error_bind] at h
      injection h with h2
      exact h2 ▸ parseWordNode_error_eq acc w e' hw
    | ok l =>
      rw [hw, except_ok_bind] at h
      exact ih l e h

/-- A list of well-formed word nodes folds successfully. -/
theorem foldlM_parseWord_ok (ws : List WordNode)
    (h : ws.any WordNode.malformed = false) :
    ∀ acc, ∃ l, ws.foldlM parseWordNode acc = Except.ok l := by
  induction ws with
  | nil =>
    intro acc
    exact ⟨acc, rfl⟩
  | cons w t ih =>
    intro acc
    rw [List.any_cons, Bool.or_eq_false_iff] at h
    obtain ⟨l, hl⟩ := parseWordNode_ok acc w h.1
    rw [List.foldlM_cons, hl, except_ok_bind]
    exact ih h.2 l

/-- A malformed word anywhere aborts the word fold with `malformedInput`. -/
theorem foldlM_parseWord_error_of_any (ws : List WordNode)
    (h : ws.any WordNode.malformed = true) :
    ∀ acc, ws.foldlM parseWordNode acc = Except.error ParseErr.malformedInput := by
  induction ws with
  | nil =>
    simp at h
  | cons w t ih =>
    intro acc
    rw [List.foldlM_cons]
    cases hw : w.malformed with
    | true =>
      rw [parseWordNode_error_of_malformed acc w hw, except_error_bind]
    | false =>
      have ht : t.any WordNode.malformed = true := by
        simpa [List.any_cons, hw] using h
      obtain ⟨l, hl⟩ := parseWordNode_ok acc w hw
      rw [hl, except_ok_bind]
      exact ih ht l

/-- A `mapM` whose body only fails with `malformedInput` only fails with
`malformedInput`. -/
theorem mapM_error_eq {α β : Type} (f : α → Except ParseErr β)
    (herr : ∀ x e, f x = Except.error e → e = ParseErr.malformedInput) :
    ∀ (l : List α) (e : ParseErr), l.mapM f = Except.error e →
      e = ParseErr.malformedInput := by
  intro l
  induction l with
  | nil =>
    intro e h
    simp [List.mapM.loop] at h
  | cons a t ih =>
    intro e h
    rw [List.mapM_cons] at h
    cases ha : f a with
    | error e' =>
      rw [ha, except_error_bind] at h
      injection h with h2
      exact h2 ▸ herr a e' ha
    | ok b =>
      rw [ha, except_ok_bind] at h
      cases ht : t.mapM f with
      | error e2 =>
        rw [ht, except_error_bind] at h
        injection h with h2
        exact h2 ▸ ih e2 ht
      | ok bs =>
        rw [ht, except_ok_bind] at h
        exact absurd h (by simp)

/-- A `mapM` over elements that all parse successfully succeeds. -/
theorem mapM_ok_of_mem {α β : Type} (f : α → Except ParseErr β) (l : List α)
    (h : ∀ x ∈ l, ∃ b, f x = Except.ok b) :
    ∃ bs, l.mapM f = Except.ok bs := by
  induction l with
  | nil => exact ⟨[], rfl⟩
  | cons a t ih =>
    obtain ⟨b, hb⟩ := h a (List.mem_cons_self a t)
    obtain ⟨bs, hbs⟩ := ih (fun x hx => h x (List.mem_cons_of_mem _ hx))
    rw [List.mapM_cons, hb, except_ok_bind, hbs, except_ok_bind]
    exact ⟨b :: bs, rfl⟩

/-- A `mapM` whose body only fails with `malformedInput` fails with
`malformedInput` as soon as any element fails. -/
theorem mapM_error_of_mem {α β : Type} (f : α → Except ParseErr β) (l : List α)
    (herr : ∀ x e, f x = Except.error e → e = ParseErr.malformedInput)
    (hex : ∃ x ∈ l, ∃ e, f x = Except.error e) :
    l.mapM f = Except.error ParseErr.malformedInput := by
  induction l with
  | nil =>
    obtain ⟨x, hx, _⟩ := hex
    exact absurd hx (List.not_mem_nil x)
  | cons a t ih =>
    rw [List.mapM_cons]
    cases ha : f a with
    | error e' =>
      rw [except_error_bind, herr a e' ha]
    | ok b =>
      rw [except_ok_bind]
      obtain ⟨x, hx, e, hxe⟩ := hex
      rcases List.mem_cons.mp hx with rfl | hxt
      · rw [ha] at hxe
        exact absurd hxe (by simp)
      · rw [ih ⟨x, hxt, e, hxe⟩, except_error_bind]

/-- The line loop body only ever fails with `malformedInput`. -/
theorem parseLineNode_error_eq (ln : LineNode) :
    ∀ e, parseLineNode ln = Except.error e → e = ParseErr.malformedInput := by
  intro e h
  rcases ln with ⟨(_ | x1), (_ | y1), (_ | x2), (_ | y2), ws⟩ <;>
      simp [parseLineNode, reqAttr] at h <;>
    first
      | exact h.symm
      | exact foldlM_parseWord_error_eq ws _ e h

/-- A well-formed line node parses successfully. -/
theorem parseLineNode_ok (ln : LineNode) (h : ln.malformed = false) :
    ∃ l, parseLineNode ln = Except.ok l := by
  rcases ln with ⟨(_ | x1), (_ | y1), (_ | x2), (_ | y2), ws⟩ <;>
      simp [LineNode.malformed] at h <;>
    · simp only [parseLineNode, reqAttr, except_ok_bind]
      exact foldlM_parseWord_ok ws (List.any_eq_false.mpr (by simpa using h)) _

/-- A malformed line node aborts the line loop with `malformedInput`. -/
theorem parseLineNode_error_of_malformed (ln : LineNode)
    (h : ln.malformed = true) :
    parseLineNode ln = Except.error ParseErr.malformedInput := by
  rcases ln with ⟨(_ | x1), (_ | y1), (_ | x2), (_ | y2), ws⟩ <;>
      simp [LineNode.malformed] at h <;>
    first
      | rfl
      | · simp only [parseLineNode, reqAttr, except_ok_bind]
          exact foldlM_parseWord_error_of_any ws (List.any_eq_true.mpr (by simpa using h)) _

/-- The block loop body only ever fails with `malformedInput`. -/
theorem parseBlockNode_error_eq (bn : BlockNode) :
    ∀ e, parseBlockNode bn = Except.error e → e = ParseErr.malformedInput := by
  intro e h
  rcases bn with ⟨(_ | x1), (_ | y1), (_ | x2), (_ | y2), lns⟩ <;>
      simp [parseBlockNode, reqAttr] at h <;>
    first
      | exact h.symm
      | exact mapM_error_eq parseLineNode parseLineNode_error_eq lns e
          (bind_pure_error_eq _ _ e h)

/-- A well-formed block node parses successfully. -/
theorem parseBlockNode_ok (bn : BlockNode) (h : bn.malformed = false) :
    ∃ b, parseBlockNode bn = Except.ok b := by
  rcases bn with ⟨(_ | x1), (_ | y1), (_ | x2), (_ | y2), lns⟩ <;>
      simp [BlockNode.malformed] at h <;>
    · simp only [parseBlockNode, reqAttr, except_ok_bind]
      obtain ⟨bs, hbs⟩ := mapM_ok_of_mem parseLineNode lns
        (fun x hx => parseLineNode_ok x (h x hx))
      rw [hbs, except_ok_bind]
      exact ⟨_, rfl⟩

/-- A malformed block node aborts the block loop with `malformedInput`. -/
theorem parseBlockNode_error_of_malformed (bn : BlockNode)
    (h : bn.malformed = true) :
    parseBlockNode bn = Except.error ParseErr.malformedInput := by
  rcases bn with ⟨(_ | x1), (_ | y1), (_ | x2), (_ | y2), lns⟩ <;>
      simp [BlockNode.malformed] at h <;>
    first
      | rfl
      | · simp only [parseBlockNode, reqAttr, except_ok_bind]
          obtain ⟨ln, hln, hmal⟩ := h
          rw [mapM_error_of_mem parseLineNode lns parseLineNode_error_eq
            ⟨ln, hln, _, parseLineNode_error_of_malformed ln hmal⟩,
            except_error_bind]

/-- The page loop body only ever fails with `malformedInput`. -/
theorem parsePageNode_error_eq (pn : PageNode) :
    ∀ e, parsePageNode pn = Except.error e → e = ParseErr.malformedInput := by
  intro e h
  rcases pn with ⟨(_ | w), (_ | hh), bns⟩ <;>
      simp [parsePageNode, reqAttr] at h <;>
    first
      | exact h.symm
      | exact mapM_error_eq parseBlockNode parseBlockNode_error_eq bns e
          (bind_pure_error_eq _ _ e h)

/-- A malformed page node aborts the page loop with `malformedInput`. -/
theorem parsePageNode_error_of_malformed (pn : PageNode)
    (h : pn.malformed = true) :
    parsePageNode pn = Except.error ParseErr.malformedInput := by
  rcases pn with ⟨(_ | w), (_ | hh), bns⟩ <;>
      simp [PageNode.malformed] at h <;>
    first
      | rfl
      | · simp only [parsePageNode, reqAttr, except_ok_bind]
          obtain ⟨bn, hbn, hmal⟩ := h
          rw [mapM_error_of_mem parseBlockNode bns parseBlockNode_error_eq
            ⟨bn, hbn, _, parseBlockNode_error_of_malformed bn hmal⟩,
            except_error_bind]

/-- C4: a record tree with any missing or unparsable required numeric field
makes `parse_html` fail with `malformedInput` and produce no pages at all:
the traversal aborts at the malformed node instead of skipping it. -/
theorem parse_html_malformed_c4 (doc : List PageNode)
    (h : docMalformed doc = true) :
    parse_html doc = Except.error ParseErr.malformedInput := by
  unfold parse_html
  have hmap : doc.mapM parsePageNode = Except.error ParseErr.malformedInput := by
    refine mapM_error_of_mem parsePageNode doc parsePageNode_error_eq ?_
    rw [docMalformed, List.any_eq_true] at h
    obtain ⟨pn, hpn, hmal⟩ := h
    exact ⟨pn, hpn, _, parsePageNode_error_of_malformed pn hmal⟩
  rw [hmap, except_error_bind]

/-- Witness for C4: a page node with a missing `width` makes the whole parse
fail with `malformedInput`. -/
theorem parse_html_malformed_c4_witness :
    parse_html [PageNode.mk none (some 10) []] =
      Except.error ParseErr.malformedInput :=
  parse_html_malformed_c4 [PageNode.mk none (some 10) []] (by decide)

end Rsrpp
